import Mathlib

/-!
Shallow embedding of the notion-pdf-service template pipeline:
`src/templates/template_manager.py` (TemplateConfig, Template, TemplateCatalog),
`src/handlers/pdf_handler.py` (PDFHandler) and
`src/templates/enhanced_pdf_handler.py` (EnhancedPDFHandler.process_and_fill_pdf).

Python dictionaries are modelled as association lists in insertion order
(keys unique, first-match lookup, insert overwrites in place); Python
values occurring in records and selection conditions are a closed variant
`Value`; Python `==` between such values is `Value.pyEq`, with the numeric
kinds bool/int/float identified by numeric value as Python does; PDF
geometry uses exact rationals; the font-metric call
`fitz.Font.text_length` is an abstract parameter `wfn`; file-system /
document side effects are recorded in an event trace.
-/

namespace NotionPdf

/-- Closed variant of the Python values that appear in records and in
`conditions` entries of the YAML configuration (string, int, float, bool,
null, list of strings), as constrained by the record provider interface:
the provider's "number" kind is a JSON number, an int or a float. A float
is modelled by the exact rational it denotes; IEEE NaN and infinities
(which JSON numbers cannot carry) are outside the model. -/
inductive Value where
  | none
  | str (s : String)
  | int (n : Int)
  | float (q : ℚ)
  | bool (b : Bool)
  | list (xs : List String)
  deriving DecidableEq, Repr

/-- The numeric interpretation Python's `==` applies across its numeric
tower: bools count as 0/1, ints and floats as their exact value; other
kinds are not numbers. -/
def Value.numVal : Value → Option ℚ
  | .int n => some (n : ℚ)
  | .float q => some q
  | .bool b => some (if b then 1 else 0)
  | _ => Option.none

/-- Python `==` on `Value`: two numeric values (bool, int, float) compare by
exact numeric value — `True == 1 == 1.0` — and all other kinds compare
structurally; values of different non-numeric kinds, or a numeric against a
non-numeric value, never compare equal. -/
def Value.pyEq : Value → Value → Bool
  | .none, .none => true
  | .str a, .str b => a == b
  | .list a, .list b => a == b
  | .int a, .int b => a == b
  | .float a, .float b => a == b
  | .bool a, .bool b => a == b
  | .int a, .float b => (a : ℚ) == b
  | .float a, .int b => a == (b : ℚ)
  | .bool a, .int b => (if a then (1 : Int) else 0) == b
  | .int a, .bool b => a == (if b then (1 : Int) else 0)
  | .bool a, .float b => (if a then (1 : ℚ) else 0) == b
  | .float a, .bool b => a == (if b then (1 : ℚ) else 0)
  | _, _ => false

/-- Python `repr` of a string restricted to quote selection: single quotes,
double quotes when the text holds a single quote and no double quote. -/
def pyStrRepr (s : String) : String :=
  if s.contains '\'' && !(s.contains '"') then
    "\"" ++ (s.replace "\\" "\\\\") ++ "\""
  else
    "'" ++ ((s.replace "\\" "\\\\").replace "'" "\\'") ++ "'"

/-- Python `str` on a float, for floats denoting a decimal rational (every
double is dyadic, hence decimal): the decimal expansion with at least one
fractional digit, as Python's shortest round-trip repr prints for such
values (`str(1.0) = "1.0"`, `str(0.25) = "0.25"`). Non-decimal rationals,
which no double denotes, fall back to a fraction rendering. -/
def pyFloatStr (q : ℚ) : String :=
  let sign := if q < 0 then "-" else ""
  let n := q.num.natAbs
  let d := q.den
  match (List.range (d + 1)).find? (fun k => 10 ^ k % d = 0) with
  | some k =>
    let k := if k = 0 then 1 else k
    let scaled := n * 10 ^ k / d
    let ip := scaled / 10 ^ k
    let fp := scaled % 10 ^ k
    sign ++ toString ip ++ "." ++
      String.mk (List.replicate (k - (toString fp).length) '0') ++ toString fp
  | Option.none => sign ++ toString n ++ "/" ++ toString d

/-- Python `str(value)` on the `Value` variant. -/
def Value.pyStr : Value → String
  | .none => "None"
  | .str s => s
  | .int n => toString n
  | .float q => pyFloatStr q
  | .bool b => if b then "True" else "False"
  | .list xs => "[" ++ String.intercalate ", " (xs.map pyStrRepr) ++ "]"

/-- A record from the record provider: a Python dict in insertion order. -/
abbrev Record := List (String × Value)

/-- First-match association lookup (Python dict access on unique keys). -/
def assocLookup (m : List (String × α)) (k : String) : Option α :=
  match m with
  | [] => Option.none
  | (k', v) :: rest => if k' = k then some v else assocLookup rest k

/-- Python `data.get(key)`: the stored value, or `None` when absent. -/
def pyGet (data : Record) (k : String) : Value :=
  match assocLookup data k with
  | some v => v
  | Option.none => Value.none

/-- Python `key in data` on a record. -/
def hasKey (data : Record) (k : String) : Bool :=
  match assocLookup data k with
  | some _ => true
  | Option.none => false

/-- `TemplateConfig` dataclass of `template_manager.py`: `file_name`,
`field_mappings` (source key to destination PDF field, insertion order),
`required_notion_fields` (a set, modelled as a list up to membership) and
`conditions` (key/value pairs, insertion order). -/
structure TemplateConfig where
  file_name : String
  field_mappings : List (String × String)
  required_notion_fields : List String
  conditions : List (String × Value)
  deriving DecidableEq, Repr

/-- Errors raised along the pipeline (`ValueError` cases distinguished by
their message, plus document I/O failure). -/
inductive Err where
  | noMatch
  | unknownTemplate (t : String)
  | missingRequired (fields : List String)
  | templateMissing (fields : List String)
  | pageOutOfRange
  deriving DecidableEq, Repr

/-- Document side effects observed while processing, in order. -/
inductive Ev where
  | openDoc
  | save
  deriving DecidableEq, Repr

/-! ## PDF document model -/

/-- A rectangle `fitz.Rect` in document coordinates, exact rationals. -/
structure Rect where
  x0 : ℚ
  y0 : ℚ
  x1 : ℚ
  y1 : ℚ
  deriving DecidableEq, Repr

/-- An interactive form-field widget (also the annotation that carries it):
field name, bounding rectangle, and the optional `text_font_size`
attribute. -/
structure Widget where
  field_name : String
  rect : Rect
  text_font_size : Option ℚ
  deriving DecidableEq, Repr

/-- A text run drawn as vector shapes by `TextWriter`: anchor position, the
character sequence laid out, and the font size. -/
structure DrawnText where
  pos : ℚ × ℚ
  text : String
  fontsize : ℚ
  deriving DecidableEq, Repr

/-- One PDF page: its widgets/annotations and the shapes drawn onto it. -/
structure Page where
  widgets : List Widget
  drawn : List DrawnText
  deriving DecidableEq, Repr

/-- A PDF document is its page list; `page.number` is the list index. -/
abbrev Doc := List Page

/-- Discovery result for one field: owning page index, bounding box, and
font size (11 when the widget exposes none). -/
structure FieldInfo where
  page : ℕ
  rect : Rect
  font_size : ℚ
  deriving DecidableEq, Repr

/-- Python dict insert: overwrite in place when the key exists (keeping its
position), append otherwise. -/
def dictInsert (m : List (String × α)) (k : String) (v : α) : List (String × α) :=
  if m.any (fun p => p.1 = k) then
    m.map (fun p => if p.1 = k then (k, v) else p)
  else
    m ++ [(k, v)]

/-- `PDFHandler._get_form_fields`: walk every page, every widget on it, and
record name, page number, rect and font size in a dict (a duplicated field
name overwrites the earlier entry). -/
def get_form_fields (doc : Doc) : List (String × FieldInfo) :=
  doc.enum.foldl
    (fun fields ip =>
      ip.2.widgets.foldl
        (fun fields w =>
          dictInsert fields w.field_name
            { page := ip.1
              rect := w.rect
              font_size := match w.text_font_size with
                           | some fs => fs
                           | Option.none => 11 })
        fields)
    []

/-- The set comprehension of `Template.validate_template_fields`:
`{w.field_name for page in doc for w in page.widgets()}` (as a list up to
membership). -/
def template_field_names (doc : Doc) : List String :=
  doc.flatMap (fun p => p.widgets.map (fun w => w.field_name))

/-! ## Template operations (`template_manager.py`) -/

/-- `Template.validate_data`: the required fields absent from the record;
raise `ValueError` carrying them when any is missing. -/
def validate_data (cfg : TemplateConfig) (data : Record) : Except Err Unit :=
  let missing_fields := cfg.required_notion_fields.filter (fun f => !hasKey data f)
  if missing_fields.isEmpty then Except.ok () else Except.error (Err.missingRequired missing_fields)

/-- `Template.validate_template_fields`: open the template document, collect
its widget field names, and raise `ValueError` carrying the configured
destination fields absent from the document (the set
`set(field_mappings.values()) - template_fields`). -/
def validate_template_fields (cfg : TemplateConfig) (doc : Doc) : Except Err Unit :=
  let template_fields := template_field_names doc
  let required_fields := (cfg.field_mappings.map Prod.snd).dedup
  let missing_fields := required_fields.filter (fun f => !(template_fields.contains f))
  if missing_fields.isEmpty then Except.ok () else Except.error (Err.templateMissing missing_fields)

/-- `Template.map_data_to_template`:
`{pdf_field: str(data.get(notion_field, '')) for notion_field, pdf_field in field_mappings.items()}`;
an absent source key defaults to `''` before `str`. A dict comprehension
keyed by the destination field: a later pair with an already-seen
destination overwrites its value in place (Python dict semantics), so
duplicate destinations collapse last-wins. -/
def map_data_to_template (cfg : TemplateConfig) (data : Record) : List (String × String) :=
  cfg.field_mappings.foldl
    (fun acc nfpf =>
      dictInsert acc nfpf.2
        (match assocLookup data nfpf.1 with
         | some v => v.pyStr
         | Option.none => ""))
    []

/-- `Template.process_data`: `validate_data`, then `validate_template_fields`
(which opens the template document: traced), then `map_data_to_template`.
Returns the result with the trace of document openings. -/
def process_data (cfg : TemplateConfig) (doc : Doc) (data : Record) :
    Except Err (List (String × String)) × List Ev :=
  match validate_data cfg data with
  | Except.error e => (Except.error e, [])
  | Except.ok _ =>
    match validate_template_fields cfg doc with
    | Except.error e => (Except.error e, [Ev.openDoc])
    | Except.ok _ => (Except.ok (map_data_to_template cfg data), [Ev.openDoc])

/-- One condition test of `TemplateCatalog.determine_template`:
`all(data.get(key) == value for key, value in config.conditions.items())`. -/
def condsMatch (data : Record) (cfg : TemplateConfig) : Bool :=
  cfg.conditions.all (fun kv => (pyGet data kv.1).pyEq kv.2)

/-- `TemplateCatalog.determine_template`: scan the catalog in configuration
order, return the first template type whose conditions all hold of the
record, else raise `ValueError`. -/
def determine_template : List (String × TemplateConfig) → Record → Except Err String
  | [], _ => Except.error Err.noMatch
  | (ttype, cfg) :: rest, data =>
    if condsMatch data cfg then Except.ok ttype else determine_template rest data

/-! ## Rendering (`pdf_handler.py`) -/

/-- The three RTL code-point ranges of `PDFHandler._is_rtl_text`: Hebrew,
Arabic, Hebrew presentation forms. -/
def rtl_ranges : List (ℕ × ℕ) :=
  [(0x0590, 0x05FF), (0x0600, 0x06FF), (0xFB1D, 0xFB4F)]

/-- `PDFHandler._is_rtl_text`: true when some character falls in one of the
RTL ranges. -/
def is_rtl_text (text : String) : Bool :=
  text.data.any (fun c => rtl_ranges.any (fun r => r.1 ≤ c.toNat && c.toNat ≤ r.2))

/-- `PDFHandler._reverse_rtl_text`: `text[::-1]` when RTL, unchanged
otherwise. -/
def reverse_rtl_text (text : String) : String :=
  if is_rtl_text text then String.mk text.data.reverse else text

/-- `PDFHandler._draw_text_as_shape` with the font metric
`font.text_length(text, fontsize)` abstracted as `wfn text fontsize`:
reverse RTL text, measure the laid-out string, anchor at
`x1 - width` (RTL) or `x0` (LTR) and at the vertical midpoint, and append
the run to the page's drawn shapes. -/
def draw_text_as_shape (wfn : String → ℚ → ℚ) (page : Page) (text : String)
    (rect : Rect) (font_size : ℚ) : Page :=
  let is_rtl := is_rtl_text text
  let text := if is_rtl then reverse_rtl_text text else text
  let text_width := wfn text font_size
  let x := if is_rtl then rect.x1 - text_width else rect.x0
  let y := (rect.y0 + rect.y1) / 2
  { page with drawn := page.drawn ++ [{ pos := (x, y), text := text, fontsize := font_size }] }

/-- One iteration of the `fill_pdf` loop for an entry `(field_name, value)`:
skip (with a warning) when the field was not discovered; otherwise draw the
value onto the discovered page. The source's deletion loop — iterating
`page.annots()` and deleting those whose `field_name` equals the entry's —
never fires: PyMuPDF's `Page.annots()` excludes form-field widgets, and the
`Annot` objects it yields have no `field_name` attribute, so
`getattr(annot, 'field_name', None)` is always `None` and the comparison
with the (string) field name is always false; the loop is a no-op and no
widget or annotation is ever deleted. A page index outside the document
raises. -/
def fill_step (wfn : String → ℚ → ℚ) (fields : List (String × FieldInfo))
    (doc : Doc) (entry : String × String) : Except Err Doc :=
  match assocLookup fields entry.1 with
  | Option.none => Except.ok doc
  | some field_info =>
    match doc[field_info.page]? with
    | Option.none => Except.error Err.pageOutOfRange
    | some page =>
      let page := draw_text_as_shape wfn page entry.2 field_info.rect field_info.font_size
      Except.ok (doc.set field_info.page page)

/-- `PDFHandler.fill_pdf` without the I/O wrapper: fold `fill_step` over the
mapped data in order. -/
def fill_pdf (wfn : String → ℚ → ℚ) (fields : List (String × FieldInfo))
    (doc : Doc) (data : List (String × String)) : Except Err Doc :=
  data.foldlM (fill_step wfn fields) doc

/-- `EnhancedPDFHandler.process_and_fill_pdf`: select the template for the
record, resolve its config, run `process_data`, then construct a
`PDFHandler` (which opens the document and discovers its fields: traced)
and fill (which opens the document again and saves on success: traced).
`docOf` resolves a template `file_name` to its document's pages. -/
def process_and_fill (wfn : String → ℚ → ℚ) (docOf : String → Doc)
    (catalog : List (String × TemplateConfig)) (data : Record) :
    Except Err Doc × List Ev :=
  match determine_template catalog data with
  | Except.error e => (Except.error e, [])
  | Except.ok ttype =>
    match assocLookup catalog ttype with
    | Option.none => (Except.error (Err.unknownTemplate ttype), [])
    | some cfg =>
      let doc := docOf cfg.file_name
      match process_data cfg doc data with
      | (Except.error e, tr) => (Except.error e, tr)
      | (Except.ok mapped, tr) =>
        let fields := get_form_fields doc
        match fill_pdf wfn fields doc mapped with
        | Except.error e => (Except.error e, tr ++ [Ev.openDoc, Ev.openDoc])
        | Except.ok doc' => (Except.ok doc', tr ++ [Ev.openDoc, Ev.openDoc, Ev.save])

/-! ## Theorems -/

/-- C1: for every catalog and record, `determine_template` returns the id of
the first definition, in catalog order, all of whose selection conditions
hold of the record under Python equality, and raises the selection error
exactly when no definition matches; when several definitions match, the
earliest in catalog order wins. -/
theorem determine_template_first_match (cat : List (String × TemplateConfig)) (data : Record) :
    (∀ t, determine_template cat data = Except.ok t ↔
      ∃ pre c post, cat = pre ++ c :: post ∧ c.1 = t ∧ condsMatch data c.2 = true ∧
        ∀ c' ∈ pre, condsMatch data c'.2 = false) ∧
    (determine_template cat data = Except.error Err.noMatch ↔
      ∀ c ∈ cat, condsMatch data c.2 = false) := by
  induction cat with
  | nil =>
    constructor
    · intro t
      constructor
      · intro h
        simp [determine_template] at h
      · rintro ⟨pre, c, post, hcat, -, -, -⟩
        simp at hcat
    · simp [determine_template]
  | cons hd tl ih =>
    obtain ⟨s, c0⟩ := hd
    obtain ⟨ih1, ih2⟩ := ih
    cases h : condsMatch data c0 with
    | true =>
      constructor
      · intro t
        constructor
        · intro hok
          simp [determine_template, h] at hok
          exact ⟨[], (s, c0), tl, by simp, hok, h, by simp⟩
        · rintro ⟨pre, c, post, hcat, hc1, hc2, hpre⟩
          cases pre with
          | nil =>
            simp at hcat
            rw [← hcat.1] at hc1
            simp [determine_template, h]
            simpa using hc1
          | cons p ps =>
            simp at hcat
            have hp := hpre p (List.mem_cons_self _ _)
            rw [← hcat.1] at hp
            simp [h] at hp
      · constructor
        · intro he
          simp [determine_template, h] at he
        · intro hall
          have hx := hall (s, c0) (List.mem_cons_self _ _)
          simp [h] at hx
    | false =>
      have hstep : determine_template ((s, c0) :: tl) data = determine_template tl data := by
        simp [determine_template, h]
      constructor
      · intro t
        rw [hstep]
        constructor
        · intro hok
          obtain ⟨pre, c, post, htl, hc1, hc2, hpre⟩ := (ih1 t).mp hok
          refine ⟨(s, c0) :: pre, c, post, by rw [htl]; rfl, hc1, hc2, ?_⟩
          intro c' hc'
          rcases List.mem_cons.mp hc' with hc' | hc'
          · rw [hc']
            exact h
          · exact hpre c' hc'
        · rintro ⟨pre, c, post, hcat, hc1, hc2, hpre⟩
          cases pre with
          | nil =>
            simp at hcat
            rw [← hcat.1] at hc2
            simp [h] at hc2
          | cons p ps =>
            simp at hcat
            exact (ih1 t).mpr
              ⟨ps, c, post, hcat.2, hc1, hc2, fun c' hc' => hpre c' (List.mem_cons_of_mem _ hc')⟩
      · rw [hstep]
        constructor
        · intro he c hc
          rcases List.mem_cons.mp hc with hc | hc
          · rw [hc]
            exact h
          · exact ih2.mp he c hc
        · intro hall
          exact ih2.mpr (fun c hc => hall c (List.mem_cons_of_mem _ hc))

/-- Witness for C1, the spec's selection scenario: a catalog whose single
definition has condition `provider = "migdal"` selects that definition for
the record `provider = "migdal", id = "1"`. -/
theorem determine_template_first_match_witness :
    determine_template
      [("migdal", { file_name := "migdal.pdf", field_mappings := [],
                    required_notion_fields := ["provider"],
                    conditions := [("provider", Value.str "migdal")] })]
      [("provider", Value.str "migdal"), ("id", Value.str "1")] = Except.ok "migdal" :=
  ((determine_template_first_match _ _).1 "migdal").mpr
    ⟨[], _, [], rfl, rfl, by decide, by simp⟩

/-- C2 counterexample: the condition test of `determine_template` is not
type-exact on every pair of kinds — a record value `True` (a bool) does
satisfy the condition value `1` (an int), because Python equality
identifies booleans with their numeric value. -/
theorem condition_equality_coercion_counterexample :
    Value.pyEq (Value.bool true) (Value.int 1) = true ∧
    determine_template
      [("t", { file_name := "f.pdf", field_mappings := [], required_notion_fields := [],
               conditions := [("k", Value.int 1)] })]
      [("k", Value.bool true)] = Except.ok "t" :=
  ⟨by decide, by rfl⟩

set_option maxRecDepth 4000 in
/-- C2 amended: in the condition test, a string record value never matches a
numeric condition value, whether int or float (so `"12345"` never matches
`12345`, and a condition on a number can never be satisfied by a
string-valued record key); in general two values satisfy Python equality
exactly when they are equal as tagged values, or both are numeric —
bool, int or float — with the same numeric value (`True == 1 == 1.0`). -/
theorem condition_equality_noncoercive :
    (∀ (s : String) (n : Int) (q : ℚ),
       Value.pyEq (Value.str s) (Value.int n) = false ∧
       Value.pyEq (Value.int n) (Value.str s) = false ∧
       Value.pyEq (Value.str s) (Value.float q) = false ∧
       Value.pyEq (Value.float q) (Value.str s) = false) ∧
    (∀ (data : Record) (cfg : TemplateConfig) (k s : String) (n : Int),
       (k, Value.int n) ∈ cfg.conditions → pyGet data k = Value.str s →
       condsMatch data cfg = false) ∧
    (∀ v w : Value, Value.pyEq v w = true ↔
       (v = w ∨ ∃ a : ℚ, Value.numVal v = some a ∧ Value.numVal w = some a)) := by
  refine ⟨fun s n q => ⟨rfl, rfl, rfl, rfl⟩, ?_, ?_⟩
  · intro data cfg k s n hmem hget
    cases hall : condsMatch data cfg with
    | false => rfl
    | true =>
      simp only [condsMatch] at hall
      have hx := List.all_eq_true.mp hall (k, Value.int n) hmem
      rw [hget] at hx
      simp [Value.pyEq] at hx
  · intro v w
    cases v <;> cases w <;> simp [Value.pyEq, Value.numVal]
    case int.int => exact fun h => h.symm
    case float.float => exact fun h => h.symm
    case int.float => exact eq_comm
    case float.int => exact eq_comm
    case float.bool => exact eq_comm
    case bool.float => exact eq_comm
    case bool.bool =>
      rename_i b1 b2
      intro h
      cases b1 <;> cases b2 <;> simp_all
    case int.bool =>
      rename_i n b
      cases b <;> simp <;> constructor <;> intro h <;> exact_mod_cast h.symm
    case bool.int =>
      rename_i b n
      cases b <;> simp <;> constructor <;> intro h <;> exact_mod_cast h.symm

/-- Witness for C2 (amended): the spec's own example — a record whose key
holds the string `"12345"` fails a condition demanding the number
`12345`. -/
theorem condition_equality_noncoercive_witness :
    condsMatch [("k", Value.str "12345")]
      { file_name := "f.pdf", field_mappings := [], required_notion_fields := [],
        conditions := [("k", Value.int 12345)] } = false :=
  condition_equality_noncoercive.2.1 _ _ "k" "12345" 12345 (by decide) (by rfl)

/-- C6: `is_rtl_text` holds exactly of the strings containing a code point
in the Hebrew block, the Arabic block, or the Hebrew presentation forms;
in particular it accepts the Hebrew word of the spec scenario and rejects
"Name". -/
theorem is_rtl_text_spec (s : String) :
    (is_rtl_text s = true ↔ ∃ c ∈ s.data,
       (0x0590 ≤ c.toNat ∧ c.toNat ≤ 0x05FF) ∨
       (0x0600 ≤ c.toNat ∧ c.toNat ≤ 0x06FF) ∨
       (0xFB1D ≤ c.toNat ∧ c.toNat ≤ 0xFB4F)) ∧
    is_rtl_text "שם" = true ∧ is_rtl_text "Name" = false := by
  refine ⟨?_, by decide, by decide⟩
  simp [is_rtl_text, rtl_ranges, List.any_eq_true]

/-- C10: a definition with no selection conditions matches every record
vacuously, so selection on a catalog holding one never fails, and every
definition listed after it is unreachable: selection over the full catalog
agrees with selection over the catalog cut just after the catch-all. -/
theorem catch_all_template (data : Record) (pre : List (String × TemplateConfig))
    (c : String × TemplateConfig) (post : List (String × TemplateConfig))
    (hempty : c.2.conditions = []) :
    condsMatch data c.2 = true ∧
    ∃ t, determine_template (pre ++ c :: post) data = Except.ok t ∧
         determine_template (pre ++ [c]) data = Except.ok t := by
  have hm : condsMatch data c.2 = true := by simp [condsMatch, hempty]
  refine ⟨hm, ?_⟩
  induction pre with
  | nil =>
    obtain ⟨s, c0⟩ := c
    exact ⟨s, by simp [determine_template, hm], by simp [determine_template, hm]⟩
  | cons p ps ih =>
    obtain ⟨s0, p0⟩ := p
    cases hp : condsMatch data p0 with
    | true =>
      exact ⟨s0, by simp [determine_template, hp], by simp [determine_template, hp]⟩
    | false =>
      obtain ⟨t, h1, h2⟩ := ih
      exact ⟨t, by simpa [determine_template, hp] using h1,
             by simpa [determine_template, hp] using h2⟩

/-- Witness for C10: a concrete catalog with a non-matching first
definition, a catch-all second, and an unreachable third; selection of the
empty record succeeds and ignores the third definition. -/
theorem catch_all_template_witness :
    condsMatch ([] : Record)
      { file_name := "b.pdf", field_mappings := [], required_notion_fields := [],
        conditions := [] } = true ∧
    ∃ t, determine_template
           ([("a", { file_name := "a.pdf", field_mappings := [], required_notion_fields := [],
                     conditions := [("k", Value.int 0)] })] ++
            ("b", { file_name := "b.pdf", field_mappings := [], required_notion_fields := [],
                    conditions := [] }) ::
            [("z", { file_name := "z.pdf", field_mappings := [], required_notion_fields := [],
                     conditions := [] })]) [] = Except.ok t ∧
         determine_template
           ([("a", { file_name := "a.pdf", field_mappings := [], required_notion_fields := [],
                     conditions := [("k", Value.int 0)] })] ++
            [("b", { file_name := "b.pdf", field_mappings := [], required_notion_fields := [],
                     conditions := [] })]) [] = Except.ok t :=
  catch_all_template []
    [("a", { file_name := "a.pdf", field_mappings := [], required_notion_fields := [],
             conditions := [("k", Value.int 0)] })]
    ("b", { file_name := "b.pdf", field_mappings := [], required_notion_fields := [],
            conditions := [] })
    [("z", { file_name := "z.pdf", field_mappings := [], required_notion_fields := [],
             conditions := [] })] rfl

/-- C3: a record missing at least one required source field makes
`process_data` fail with the validation error before any document is
opened and before any mapping occurs (empty effect trace), and makes the
whole `process_and_fill` pipeline stop there with the same error, an empty
trace, and hence no output document saved. -/
theorem process_data_fail_fast (cfg : TemplateConfig) (doc : Doc) (data : Record)
    (hmiss : ∃ f ∈ cfg.required_notion_fields, hasKey data f = false) :
    (process_data cfg doc data =
      (Except.error (Err.missingRequired
        (cfg.required_notion_fields.filter (fun f => !hasKey data f))), [])) ∧
    (∀ (wfn : String → ℚ → ℚ) (docOf : String → Doc)
       (cat : List (String × TemplateConfig)) (ttype : String),
       determine_template cat data = Except.ok ttype →
       assocLookup cat ttype = some cfg →
       process_and_fill wfn docOf cat data =
         (Except.error (Err.missingRequired
           (cfg.required_notion_fields.filter (fun f => !hasKey data f))), [])) := by
  have hne : cfg.required_notion_fields.filter (fun f => !hasKey data f) ≠ [] := by
    obtain ⟨f, hf, hkey⟩ := hmiss
    intro hnil
    have hx : f ∈ cfg.required_notion_fields.filter (fun f => !hasKey data f) := by
      simp [List.mem_filter, hf, hkey]
    rw [hnil] at hx
    simp at hx
  have hvd : validate_data cfg data =
      Except.error (Err.missingRequired
        (cfg.required_notion_fields.filter (fun f => !hasKey data f))) := by
    simp [validate_data, hne]
  have hpd : process_data cfg doc data =
      (Except.error (Err.missingRequired
        (cfg.required_notion_fields.filter (fun f => !hasKey data f))), []) := by
    simp [process_data, hvd]
  refine ⟨hpd, ?_⟩
  intro wfn docOf cat ttype hdet hlook
  have hpd' : process_data cfg (docOf cfg.file_name) data =
      (Except.error (Err.missingRequired
        (cfg.required_notion_fields.filter (fun f => !hasKey data f))), []) := by
    simp [process_data, hvd]
  simp [process_and_fill, hdet, hlook, hpd']

/-- Witness for C3: a template requiring the source field "provider",
applied to the empty record through the full pipeline, fails with the
validation error and an empty trace. -/
theorem process_data_fail_fast_witness :
    process_and_fill (fun _ _ => (0 : ℚ)) (fun _ => ([] : Doc))
      [("t", { file_name := "t.pdf", field_mappings := [],
               required_notion_fields := ["provider"], conditions := [] })]
      [] =
      (Except.error (Err.missingRequired ["provider"]), []) :=
  (process_data_fail_fast
      { file_name := "t.pdf", field_mappings := [],
        required_notion_fields := ["provider"], conditions := [] }
      [] [] ⟨"provider", by decide, by rfl⟩).2
    (fun _ _ => (0 : ℚ)) (fun _ => ([] : Doc)) _ "t" (by rfl) (by rfl)

/-- Lookup after the overwrite pass of `dictInsert`. -/
theorem assocLookup_overwrite (m : List (String × α)) (k : String) (v : α) (pf : String) :
    assocLookup (m.map (fun p => if p.1 = k then (k, v) else p)) pf =
      if k = pf then (if m.any (fun p => p.1 = k) then some v else Option.none)
      else assocLookup m pf := by
  induction m with
  | nil => simp [assocLookup]
  | cons p rest ih =>
    obtain ⟨k', w⟩ := p
    simp only [List.map_cons]
    by_cases hk' : k' = k
    · rw [if_pos hk']
      by_cases hpf : k = pf
      · simp [assocLookup, hpf, hk', List.any_cons]
      · simp [assocLookup, hk', hpf, ih]
    · rw [if_neg hk']
      by_cases hk'pf : k' = pf
      · have hknpf : ¬k = pf := fun hc => hk' (hk'pf.trans hc.symm)
        simp [assocLookup, hk'pf, hknpf]
      · simp [assocLookup, hk'pf, ih, List.any_cons]
        rw [decide_eq_false hk', Bool.false_or]

/-- A key occurring nowhere in an association list looks up to nothing. -/
theorem assocLookup_eq_none_of_no_key (m : List (String × α)) (k : String)
    (h : m.any (fun p => p.1 = k) = false) : assocLookup m k = Option.none := by
  induction m with
  | nil => rfl
  | cons p rest ih =>
    obtain ⟨k', v⟩ := p
    simp only [List.any_cons, Bool.or_eq_false_iff] at h
    have hk : ¬k' = k := by simpa using h.1
    simp [assocLookup, hk, ih h.2]

/-- Association lookup over an appended list checks the front first. -/
theorem assocLookup_append (m1 m2 : List (String × α)) (k : String) :
    assocLookup (m1 ++ m2) k =
      match assocLookup m1 k with
      | some v => some v
      | Option.none => assocLookup m2 k := by
  induction m1 with
  | nil => rfl
  | cons p rest ih =>
    obtain ⟨k', v⟩ := p
    by_cases hp : k' = k
    · simp [assocLookup, hp]
    · simp [assocLookup, hp, ih]

/-- Lookup after a Python dict insert: the inserted key now holds the new
value, every other key is untouched, whether the key was present (overwrite
in place) or fresh (append). -/
theorem assocLookup_dictInsert (m : List (String × α)) (k : String) (v : α) (pf : String) :
    assocLookup (dictInsert m k v) pf = if k = pf then some v else assocLookup m pf := by
  by_cases hex : m.any (fun p => p.1 = k)
  · simp only [dictInsert, hex, if_true]
    rw [assocLookup_overwrite, hex]
    simp
  · have hex' : m.any (fun p => p.1 = k) = false := by
      cases hx : m.any (fun p => p.1 = k)
      · rfl
      · exact absurd hx hex
    simp only [dictInsert, hex', Bool.false_eq_true, if_false]
    rw [assocLookup_append]
    by_cases hpf : k = pf
    · subst hpf
      rw [assocLookup_eq_none_of_no_key m k hex']
      simp [assocLookup]
    · cases hm : assocLookup m pf <;> simp [assocLookup, hpf, Ne.symm hpf]

/-- `find?` over an appended list searches the front first. -/
theorem find?_append (l1 l2 : List α) (p : α → Bool) :
    (l1 ++ l2).find? p = match l1.find? p with
      | some a => some a
      | Option.none => l2.find? p := by
  induction l1 with
  | nil => rfl
  | cons a l ih =>
    by_cases ha : p a
    · simp [List.find?, ha]
    · have ha2 : p a = false := by simpa using ha
      simp [List.find?, ha2, ih]

/-- Lookup in a dict built by folding `dictInsert` over key/value pairs:
each key holds the value of the last pair writing it. -/
theorem foldl_dictInsert_lookup (val : String → String) (ms : List (String × String)) :
    ∀ (acc : List (String × String)) (pf : String),
    assocLookup (ms.foldl (fun acc q => dictInsert acc q.2 (val q.1)) acc) pf =
      match ms.reverse.find? (fun q => q.2 == pf) with
      | some q => some (val q.1)
      | Option.none => assocLookup acc pf := by
  induction ms with
  | nil =>
    intro acc pf
    rfl
  | cons m ms ih =>
    intro acc pf
    simp only [List.foldl_cons]
    rw [ih, List.reverse_cons, find?_append]
    cases hf : ms.reverse.find? (fun q => q.2 == pf) with
    | some q => rfl
    | none =>
      rw [assocLookup_dictInsert]
      simp only [List.find?]
      by_cases hpf : m.2 = pf
      · simp [hpf]
      · have h2 : (m.2 == pf) = false := by simpa using hpf
        simp [hpf, h2, List.find?]

/-- A fold of `dictInsert` over pairs with pairwise distinct keys, none of
which occurs in the accumulator, just appends one entry per pair. -/
theorem foldl_dictInsert_fresh (val : String → String) (ms : List (String × String)) :
    ∀ (acc : List (String × String)),
    (ms.map Prod.snd).Nodup →
    (∀ p ∈ acc, p.1 ∉ ms.map Prod.snd) →
    ms.foldl (fun acc q => dictInsert acc q.2 (val q.1)) acc =
      acc ++ ms.map (fun q => (q.2, val q.1)) := by
  induction ms with
  | nil =>
    intro acc _ _
    simp
  | cons m ms ih =>
    intro acc hnd hacc
    simp only [List.foldl_cons]
    have hfresh : acc.any (fun p => p.1 = m.2) = false := by
      cases hany : acc.any (fun p => p.1 = m.2)
      · rfl
      · obtain ⟨p, hpmem, hp⟩ := List.any_eq_true.mp hany
        have hp2 : p.1 = m.2 := by simpa using hp
        exact absurd (by rw [List.map_cons]; rw [hp2]; exact List.mem_cons_self _ _)
          (hacc p hpmem)
    have hins : dictInsert acc m.2 (val m.1) = acc ++ [(m.2, val m.1)] := by
      simp [dictInsert, hfresh]
    rw [hins]
    rw [List.map_cons] at hnd
    have hnd' := List.nodup_cons.mp hnd
    have haccnext : ∀ p ∈ acc ++ [(m.2, val m.1)], p.1 ∉ ms.map Prod.snd := by
      intro p hp
      rcases List.mem_append.mp hp with hpa | hps
      · intro hc
        exact hacc p hpa (by rw [List.map_cons]; exact List.mem_cons_of_mem _ hc)
      · have hpe : p = (m.2, val m.1) := by simpa using hps
        rw [hpe]
        exact hnd'.1
    rw [ih (acc ++ [(m.2, val m.1)]) hnd'.2 haccnext, List.map_cons]
    simp

/-- C4 counterexample: two source keys mapping to the same destination
field collapse into a single dict entry, last value winning, so the output
does not hold one entry per `field_mappings` pair. -/
theorem map_data_to_template_duplicate_counterexample :
    map_data_to_template
      { file_name := "t.pdf", field_mappings := [("a", "f"), ("b", "f")],
        required_notion_fields := [], conditions := [] }
      [("a", Value.str "1"), ("b", Value.str "2")] = [("f", "2")] ∧
    (map_data_to_template
      { file_name := "t.pdf", field_mappings := [("a", "f"), ("b", "f")],
        required_notion_fields := [], conditions := [] }
      [("a", Value.str "1"), ("b", Value.str "2")]).length ≠
      ([("a", "f"), ("b", "f")] : List (String × String)).length :=
  ⟨rfl, by decide⟩

/-- C4 amended: `map_data_to_template` builds an ordered dict keyed by the
destination field — each destination holds the stringified record value of
the last source key mapped to it, an absent source key degrading to the
empty string, never an error; the result depends only on the record and
the field mappings; and when destinations are pairwise distinct it is
exactly one entry per pair, in `field_mappings` order. -/
theorem map_data_to_template_spec (cfg : TemplateConfig) (data : Record) :
    (∀ pf : String, assocLookup (map_data_to_template cfg data) pf =
      match cfg.field_mappings.reverse.find? (fun q => q.2 == pf) with
      | some q => some (match assocLookup data q.1 with
                        | some v => v.pyStr
                        | Option.none => "")
      | Option.none => Option.none) ∧
    ((cfg.field_mappings.map Prod.snd).Nodup →
      map_data_to_template cfg data =
        cfg.field_mappings.map (fun q =>
          (q.2, match assocLookup data q.1 with
                | some v => v.pyStr
                | Option.none => ""))) ∧
    (∀ cfg' : TemplateConfig, cfg'.field_mappings = cfg.field_mappings →
      map_data_to_template cfg' data = map_data_to_template cfg data) := by
  refine ⟨?_, ?_, ?_⟩
  · intro pf
    exact foldl_dictInsert_lookup
      (fun nf => match assocLookup data nf with
                 | some v => v.pyStr
                 | Option.none => "")
      cfg.field_mappings [] pf
  · intro hnd
    have h := foldl_dictInsert_fresh
      (fun nf => match assocLookup data nf with
                 | some v => v.pyStr
                 | Option.none => "")
      cfg.field_mappings [] hnd (by intro p hp; simp at hp)
    simpa using h
  · intro cfg' h
    simp [map_data_to_template, h]

/-- Witness for C4 (amended): with distinct destinations, one entry per
pair in order; the absent source key yields the empty string. -/
theorem map_data_to_template_spec_witness :
    map_data_to_template
      { file_name := "t.pdf",
        field_mappings := [("name_hebrew", "text_2"), ("missing_key", "text_3")],
        required_notion_fields := [], conditions := [] }
      [("name_hebrew", Value.str "שם")] =
      [("text_2", "שם"), ("text_3", "")] :=
  ((map_data_to_template_spec
      { file_name := "t.pdf",
        field_mappings := [("name_hebrew", "text_2"), ("missing_key", "text_3")],
        required_notion_fields := [], conditions := [] }
      [("name_hebrew", Value.str "שם")]).2.1 (by decide)).trans rfl

/-- C5: `validate_template_fields` succeeds exactly when every configured
destination field occurs among the widget names of the template document;
otherwise it fails carrying exactly the set of configured destination
fields absent from the document; and on every `process_data` call with a
valid record the failing check aborts before any mapping is produced. -/
theorem validate_template_fields_spec (cfg : TemplateConfig) (doc : Doc) :
    (validate_template_fields cfg doc = Except.ok () ↔
      ∀ f ∈ cfg.field_mappings.map Prod.snd, f ∈ template_field_names doc) ∧
    ((∃ f ∈ cfg.field_mappings.map Prod.snd, f ∉ template_field_names doc) →
      ∃ m, validate_template_fields cfg doc = Except.error (Err.templateMissing m) ∧
        m ≠ [] ∧
        ∀ f, f ∈ m ↔ (f ∈ cfg.field_mappings.map Prod.snd ∧ f ∉ template_field_names doc)) ∧
    (∀ data : Record, validate_data cfg data = Except.ok () →
      (∃ f ∈ cfg.field_mappings.map Prod.snd, f ∉ template_field_names doc) →
      process_data cfg doc data =
        (Except.error (Err.templateMissing
          ((cfg.field_mappings.map Prod.snd).dedup.filter
            (fun g => !((template_field_names doc).contains g)))), [Ev.openDoc])) := by
  have hmem : ∀ f, (f ∈ (cfg.field_mappings.map Prod.snd).dedup.filter
      (fun g => !((template_field_names doc).contains g))) ↔
      (f ∈ cfg.field_mappings.map Prod.snd ∧ f ∉ template_field_names doc) := by
    intro f
    simp [List.mem_filter]
  by_cases hm : ((cfg.field_mappings.map Prod.snd).dedup.filter
      (fun g => !((template_field_names doc).contains g))) = []
  · have hok : validate_template_fields cfg doc = Except.ok () := by
      simp only [validate_template_fields]
      split
      · rfl
      · next hemp => exact absurd (List.isEmpty_eq_true.mpr hm) hemp
    refine ⟨⟨fun _ => ?_, fun _ => hok⟩, ?_, ?_⟩
    · intro f hf
      by_contra hnf
      have hx := (hmem f).mpr ⟨hf, hnf⟩
      rw [hm] at hx
      simp at hx
    · rintro ⟨f, hf, hnf⟩
      have hx := (hmem f).mpr ⟨hf, hnf⟩
      rw [hm] at hx
      simp at hx
    · rintro data - ⟨f, hf, hnf⟩
      have hx := (hmem f).mpr ⟨hf, hnf⟩
      rw [hm] at hx
      simp at hx
  · have herr : validate_template_fields cfg doc = Except.error (Err.templateMissing
        ((cfg.field_mappings.map Prod.snd).dedup.filter
          (fun g => !((template_field_names doc).contains g)))) := by
      simp only [validate_template_fields]
      split
      · next hemp => exact absurd (List.isEmpty_eq_true.mp hemp) hm
      · rfl
    refine ⟨⟨fun h => ?_, fun hall => ?_⟩, fun _ => ⟨_, herr, hm, hmem⟩, ?_⟩
    · rw [herr] at h
      simp at h
    · exfalso
      obtain ⟨f, hfm⟩ := List.exists_mem_of_ne_nil _ hm
      obtain ⟨hf, hnf⟩ := (hmem f).mp hfm
      exact hnf (hall f hf)
    · rintro data hvd -
      simp [process_data, hvd, herr]

/-- Witness for C5: a configuration demanding destination field "fx" on a
document with no widgets fails with exactly the missing set. -/
theorem validate_template_fields_spec_witness :
    ∃ m, validate_template_fields
        { file_name := "t.pdf", field_mappings := [("a", "fx")],
          required_notion_fields := [], conditions := [] } ([] : Doc) =
        Except.error (Err.templateMissing m) ∧
      m ≠ [] ∧
      ∀ f, f ∈ m ↔
        (f ∈ ({ file_name := "t.pdf", field_mappings := [("a", "fx")],
                required_notion_fields := [], conditions := [] } :
                TemplateConfig).field_mappings.map Prod.snd ∧
         f ∉ template_field_names ([] : Doc)) :=
  (validate_template_fields_spec
      { file_name := "t.pdf", field_mappings := [("a", "fx")],
        required_notion_fields := [], conditions := [] } ([] : Doc)).2.1
    ⟨"fx", by decide, by decide⟩

/-- C7: a field value drawn by `draw_text_as_shape` is reversed wholesale
when RTL and anchored at `x1` minus the measured width of the reversed
text, is drawn unreversed from `x0` when LTR, and in both cases sits at
the vertical midpoint of the field rectangle. -/
theorem draw_text_as_shape_spec (wfn : String → ℚ → ℚ) (page : Page) (text : String)
    (rect : Rect) (font_size : ℚ) :
    (is_rtl_text text = true →
      draw_text_as_shape wfn page text rect font_size =
        { page with drawn := page.drawn ++
            [{ pos := (rect.x1 - wfn (String.mk text.data.reverse) font_size,
                       (rect.y0 + rect.y1) / 2),
               text := String.mk text.data.reverse, fontsize := font_size }] }) ∧
    (is_rtl_text text = false →
      draw_text_as_shape wfn page text rect font_size =
        { page with drawn := page.drawn ++
            [{ pos := (rect.x0, (rect.y0 + rect.y1) / 2),
               text := text, fontsize := font_size }] }) := by
  constructor <;> intro h <;> simp [draw_text_as_shape, reverse_rtl_text, h]

/-- Witness for C7, the spec's rendering scenario: the Hebrew value drawn
into `rect = (0, 0, 100, 20)` at size 11 under a metric giving width 7 is
reversed and anchored at `x = 100 - 7`, `y = 10`. -/
theorem draw_text_as_shape_spec_witness :
    (draw_text_as_shape (fun _ _ => (7 : ℚ)) { widgets := [], drawn := [] } "שם"
      { x0 := 0, y0 := 0, x1 := 100, y1 := 20 } 11 =
      { widgets := [],
        drawn := [{ pos := ((100 : ℚ) - 7, ((0 : ℚ) + 20) / 2),
                    text := "םש", fontsize := 11 }] }) ∧
    (100 : ℚ) - 7 = 93 ∧ ((0 : ℚ) + 20) / 2 = 10 := by
  refine ⟨?_, by norm_num, by norm_num⟩
  rw [(draw_text_as_shape_spec (fun _ _ => (7 : ℚ)) { widgets := [], drawn := [] } "שם"
      { x0 := 0, y0 := 0, x1 := 100, y1 := 20 } 11).1 (by decide)]
  rfl

/-! ## Helper lemmas about the fill fold -/

/-- `fill_pdf` on an empty mapping returns the document unchanged. -/
theorem fill_pdf_nil (wfn : String → ℚ → ℚ) (fields : List (String × FieldInfo)) (doc : Doc) :
    fill_pdf wfn fields doc [] = Except.ok doc := rfl

/-- Unfolding of the `fill_pdf` fold over the first entry. -/
theorem fill_pdf_cons (wfn : String → ℚ → ℚ) (fields : List (String × FieldInfo))
    (doc : Doc) (e : String × String) (tl : List (String × String)) :
    fill_pdf wfn fields doc (e :: tl) =
      match fill_step wfn fields doc e with
      | Except.error err => Except.error err
      | Except.ok d => fill_pdf wfn fields d tl := by
  have hbind : fill_pdf wfn fields doc (e :: tl) =
      fill_step wfn fields doc e >>= fun d => fill_pdf wfn fields d tl := rfl
  rw [hbind]
  cases fill_step wfn fields doc e <;> rfl

/-- The equations of `fill_step`, in one closed form. -/
theorem fill_step_eq (wfn : String → ℚ → ℚ) (fields : List (String × FieldInfo))
    (doc : Doc) (e : String × String) :
    fill_step wfn fields doc e =
      match assocLookup fields e.1 with
      | Option.none => Except.ok doc
      | some fi =>
        match doc[fi.page]? with
        | Option.none => Except.error Err.pageOutOfRange
        | some page =>
          Except.ok (doc.set fi.page
            (draw_text_as_shape wfn page e.2 fi.rect fi.font_size)) := rfl

/-- An entry naming an undiscovered field is a no-op for `fill_step`. -/
theorem fill_step_skip (wfn : String → ℚ → ℚ) (fields : List (String × FieldInfo))
    (doc : Doc) (e : String × String) (h : assocLookup fields e.1 = Option.none) :
    fill_step wfn fields doc e = Except.ok doc := by
  rw [fill_step_eq, h]

/-- Dropping the undiscovered entries from the mapped data does not change
the result of `fill_pdf`. -/
theorem fill_pdf_filter_discovered (wfn : String → ℚ → ℚ)
    (fields : List (String × FieldInfo)) (doc : Doc) (data : List (String × String)) :
    fill_pdf wfn fields doc (data.filter (fun e => (assocLookup fields e.1).isSome)) =
      fill_pdf wfn fields doc data := by
  induction data generalizing doc with
  | nil => rfl
  | cons e tl ih =>
    by_cases hs : (assocLookup fields e.1).isSome
    · rw [List.filter_cons_of_pos (by simpa using hs), fill_pdf_cons, fill_pdf_cons]
      cases h : fill_step wfn fields doc e with
      | error err => rfl
      | ok d => exact ih d
    · have hnone : assocLookup fields e.1 = Option.none := by
        cases hl : assocLookup fields e.1 with
        | none => rfl
        | some fi => rw [hl] at hs; simp at hs
      rw [List.filter_cons_of_neg (by simp [hnone]), ih doc, fill_pdf_cons,
        fill_step_skip wfn fields doc e hnone]

/-- Inversion of a successful `fill_step`: either the field was
undiscovered and the document is unchanged, or the discovered page was
rewritten with the text drawn onto it (its widgets untouched). -/
theorem fill_step_ok_inv (wfn : String → ℚ → ℚ) (fields : List (String × FieldInfo))
    (doc : Doc) (e : String × String) (doc' : Doc)
    (h : fill_step wfn fields doc e = Except.ok doc') :
    (assocLookup fields e.1 = Option.none ∧ doc' = doc) ∨
    (∃ fi page, assocLookup fields e.1 = some fi ∧ doc[fi.page]? = some page ∧
      doc' = doc.set fi.page
        (draw_text_as_shape wfn page e.2 fi.rect fi.font_size)) := by
  rw [fill_step_eq] at h
  split at h
  · next hl =>
    injection h with h
    exact Or.inl ⟨hl, h.symm⟩
  · next fi hl =>
    split at h
    · next hp =>
      simp at h
    · next page hp =>
      injection h with h
      exact Or.inr ⟨fi, page, hl, hp, h.symm⟩

/-- A list index holding a value is within bounds. -/
theorem lt_of_getElem?_some : ∀ {l : List α} {i : ℕ} {a : α}, l[i]? = some a → i < l.length := by
  intro l
  induction l with
  | nil =>
    intro i a h
    simp at h
  | cons x xs ih =>
    intro i a h
    cases i with
    | zero => simp
    | succ j =>
      simp only [List.getElem?_cons_succ] at h
      simpa using Nat.succ_lt_succ (ih h)

/-- A successful `fill_step` never touches any page's widgets: drawing only
appends a shape. -/
theorem fill_step_widgets_eq (wfn : String → ℚ → ℚ)
    (fields : List (String × FieldInfo)) (doc : Doc) (e : String × String) (doc' : Doc)
    (h : fill_step wfn fields doc e = Except.ok doc') (i : ℕ) (p' : Page)
    (hp' : doc'[i]? = some p') :
    ∃ p, doc[i]? = some p ∧ p'.widgets = p.widgets := by
  rcases fill_step_ok_inv wfn fields doc e doc' h with ⟨-, rfl⟩ | ⟨fi, page, -, hp, rfl⟩
  · exact ⟨p', hp', rfl⟩
  · by_cases hi : i = fi.page
    · subst hi
      have hlt : fi.page < doc.length := lt_of_getElem?_some hp
      rw [List.getElem?_set_eq_of_lt _ hlt] at hp'
      injection hp' with hp'
      refine ⟨page, hp, ?_⟩
      rw [← hp']
      simp [draw_text_as_shape]
    · rw [List.getElem?_set_ne (Ne.symm hi)] at hp'
      exact ⟨p', hp', rfl⟩

/-- C8: during `fill_pdf`, an entry of the mapped data naming an
undiscovered field is skipped — the step leaves the document untouched —
and skipping never aborts the fill: the result over the full mapped data
equals the result over just its discovered entries, so every other entry
is still rendered. -/
theorem fill_pdf_graceful_skip (wfn : String → ℚ → ℚ)
    (fields : List (String × FieldInfo)) (doc : Doc) (data : List (String × String)) :
    fill_pdf wfn fields doc (data.filter (fun e => (assocLookup fields e.1).isSome)) =
      fill_pdf wfn fields doc data ∧
    ∀ e : String × String, assocLookup fields e.1 = Option.none →
      fill_step wfn fields doc e = Except.ok doc :=
  ⟨fill_pdf_filter_discovered wfn fields doc data,
   fun e he => fill_step_skip wfn fields doc e he⟩

/-- Witness for C8: an entry naming the bogus field is dropped without
affecting the fill of the discovered field, and its own step is the
identity. -/
theorem fill_pdf_graceful_skip_witness :
    fill_pdf (fun _ _ => (0 : ℚ))
        [("a", { page := 0, rect := { x0 := 0, y0 := 0, x1 := 10, y1 := 10 },
                 font_size := 11 })]
        [{ widgets := [{ field_name := "a",
                         rect := { x0 := 0, y0 := 0, x1 := 10, y1 := 10 },
                         text_font_size := some 11 }], drawn := [] }]
        [("a", "v")] =
      fill_pdf (fun _ _ => (0 : ℚ))
        [("a", { page := 0, rect := { x0 := 0, y0 := 0, x1 := 10, y1 := 10 },
                 font_size := 11 })]
        [{ widgets := [{ field_name := "a",
                         rect := { x0 := 0, y0 := 0, x1 := 10, y1 := 10 },
                         text_font_size := some 11 }], drawn := [] }]
        [("bogus", "x"), ("a", "v")] ∧
    fill_step (fun _ _ => (0 : ℚ))
        [("a", { page := 0, rect := { x0 := 0, y0 := 0, x1 := 10, y1 := 10 },
                 font_size := 11 })]
        [{ widgets := [{ field_name := "a",
                         rect := { x0 := 0, y0 := 0, x1 := 10, y1 := 10 },
                         text_font_size := some 11 }], drawn := [] }]
        ("bogus", "x") =
      Except.ok
        [{ widgets := [{ field_name := "a",
                         rect := { x0 := 0, y0 := 0, x1 := 10, y1 := 10 },
                         text_font_size := some 11 }], drawn := [] }] :=
  ⟨(fill_pdf_graceful_skip (fun _ _ => (0 : ℚ)) _ _ [("bogus", "x"), ("a", "v")]).1,
   (fill_pdf_graceful_skip (fun _ _ => (0 : ℚ)) _ _ [("bogus", "x"), ("a", "v")]).2
     ("bogus", "x") rfl⟩

/-- C9: contrary to the claim (and to the code's own comment "Remove form
fields by removing their annotations"), the fill deletes no widget at all:
the deletion loop iterates `page.annots()`, which in PyMuPDF excludes
form-field widgets, and tests a `field_name` attribute the yielded `Annot`
objects do not have, so it never fires. A successful `fill_pdf` leaves
every page's widgets exactly as in the input document — the output keeps
all its editable form fields, including those of the rendered names. -/
theorem fill_pdf_never_deletes_widgets (wfn : String → ℚ → ℚ)
    (fields : List (String × FieldInfo)) (data : List (String × String)) :
    ∀ (doc doc' : Doc), fill_pdf wfn fields doc data = Except.ok doc' →
    ∀ (i : ℕ) (p' : Page), doc'[i]? = some p' →
    ∃ p, doc[i]? = some p ∧ p'.widgets = p.widgets := by
  induction data with
  | nil =>
    intro doc doc' h i p' hp'
    rw [fill_pdf_nil] at h
    injection h with h
    subst h
    exact ⟨p', hp', rfl⟩
  | cons e tl ih =>
    intro doc doc' h i p' hp'
    rw [fill_pdf_cons] at h
    cases hs : fill_step wfn fields doc e with
    | error err =>
      rw [hs] at h
      simp at h
    | ok mid =>
      rw [hs] at h
      obtain ⟨pm, hpm, hw1⟩ := ih mid doc' h i p' hp'
      obtain ⟨p, hp, hw2⟩ := fill_step_widgets_eq wfn fields doc e mid hs i pm hpm
      exact ⟨p, hp, hw1.trans hw2⟩

/-- Witness for C9, evaluating the code at the failing input: a document
whose one page holds the interactive widget "a", filled with mapped data
for "a", still holds that widget — unchanged — in the saved output. -/
theorem fill_pdf_never_deletes_widgets_witness :
    ∃ p, ([{ widgets := [{ field_name := "a",
                           rect := { x0 := 0, y0 := 0, x1 := 10, y1 := 10 },
                           text_font_size := some 11 }], drawn := [] }] : Doc)[(0 : ℕ)]? =
        some p ∧
      ({ widgets := [{ field_name := "a",
                       rect := { x0 := 0, y0 := 0, x1 := 10, y1 := 10 },
                       text_font_size := some 11 }],
         drawn := [{ pos := ((0 : ℚ), ((0 : ℚ) + 10) / 2),
                     text := "x", fontsize := 11 }] } : Page).widgets = p.widgets :=
  fill_pdf_never_deletes_widgets (fun _ _ => (0 : ℚ))
    (get_form_fields
      [{ widgets := [{ field_name := "a",
                       rect := { x0 := 0, y0 := 0, x1 := 10, y1 := 10 },
                       text_font_size := some 11 }], drawn := [] }])
    [("a", "x")]
    [{ widgets := [{ field_name := "a",
                     rect := { x0 := 0, y0 := 0, x1 := 10, y1 := 10 },
                     text_font_size := some 11 }], drawn := [] }]
    [{ widgets := [{ field_name := "a",
                     rect := { x0 := 0, y0 := 0, x1 := 10, y1 := 10 },
                     text_font_size := some 11 }],
       drawn := [{ pos := ((0 : ℚ), ((0 : ℚ) + 10) / 2),
                   text := "x", fontsize := 11 }] }]
    rfl 0
    { widgets := [{ field_name := "a",
                    rect := { x0 := 0, y0 := 0, x1 := 10, y1 := 10 },
                    text_font_size := some 11 }],
      drawn := [{ pos := ((0 : ℚ), ((0 : ℚ) + 10) / 2),
                  text := "x", fontsize := 11 }] }
    rfl

end NotionPdf
